import Mathlib

/-!
Shallow embedding of the `d-dox-server` file controller
(`src/controllers/files.rs`): a thin HTTP gateway mapping three routes onto
`put` / `get` / `list` calls against an S3-compatible object store, with a
process-wide memoized configuration.

The external object store is modelled as an association list from object key
to byte payload (S3 bucket semantics: at most one object per key, `put`
overwrites).  Multipart parsing, HTTP transport and the store client are
external libraries; the handlers are translated over the values those
libraries hand them.
-/

set_option autoImplicit false

namespace DDox

/-- Byte payloads, as lists of byte values. -/
abbrev Bytes := List Nat

/-- The S3 connection configuration (`struct S3Config` in `files.rs`). -/
structure S3Config where
  endpoint : String
  bucket : String
  region : String
  access_key : String
  secret_key : String
deriving DecidableEq, Repr

/-- Translation of `impl Default for S3Config`: the hardcoded development
defaults. -/
def S3Config.default : S3Config :=
  { endpoint := "http://minio:9000"
    bucket := "files"
    region := "us-east-1"
    access_key := "minioadmin"
    secret_key := "minioadmin" }

/-- The resolution closure of `get_s3_config`:
`ctx.config.settings.as_ref().and_then(|s| serde_json::from_value(s.clone()).ok()).unwrap_or_default()`.
The settings blob (of arbitrary external shape `α`) and the serde decoder are
external; the decoder is abstracted as a function returning `none` exactly when
`serde_json::from_value(..).ok()` yields `None`, i.e. when the blob fails to
decode as a whole `S3Config`. -/
def resolveS3Config {α : Type} (settings : Option α) (decode : α → Option S3Config) : S3Config :=
  (settings.bind decode).getD S3Config.default

/-- State of the `static S3_CONFIG: OnceLock<S3Config>` cell: `none` before
initialization, `some v` once initialized. -/
abbrev OnceLockState := Option S3Config

/-- Translation of `OnceLock::get_or_init`: return the stored value if the cell
is initialized, otherwise run the closure, store its result and return it. -/
def getOrInit (cell : OnceLockState) (f : Unit → S3Config) : S3Config × OnceLockState :=
  match cell with
  | some v => (v, some v)
  | none => (f (), some (f ()))

/-- The per-call context observed by `get_s3_config`: the application context's
settings blob together with the external decoder. -/
structure CallCtx (α : Type) where
  settings : Option α
  decode : α → Option S3Config

/-- Translation of `fn get_s3_config(ctx)`: memoized configuration resolution,
with the `S3_CONFIG` cell state passed explicitly. -/
def get_s3_config {α : Type} (cell : OnceLockState) (ctx : CallCtx α) :
    S3Config × OnceLockState :=
  getOrInit cell (fun _ => resolveS3Config ctx.settings ctx.decode)

/-- A sequence of `get_s3_config` calls within one process, threading the
`S3_CONFIG` cell state and collecting each call's return value. -/
def runConfigCalls {α : Type} : List (CallCtx α) → OnceLockState → List S3Config × OnceLockState
  | [], cell => ([], cell)
  | c :: cs, cell =>
    let r := get_s3_config cell c
    let rs := runConfigCalls cs r.2
    (r.1 :: rs.1, rs.2)

/-- The bucket contents: an association list from object key to stored bytes,
modelling the external S3-compatible store the handlers call into. -/
abbrev Store := List (String × Bytes)

/-- The store client's `put(key, bytes)`: overwrite the object under `key` if
one exists, otherwise add a new object. -/
def Store.put : Store → String → Bytes → Store
  | [], key, b => [(key, b)]
  | (k, v) :: rest, key, b =>
    if k = key then (key, b) :: rest else (k, v) :: Store.put rest key b

/-- The store client's `get(key)`: the bytes of the object under `key`, or
`none` when no object with that exact key exists. -/
def Store.get : Store → String → Option Bytes
  | [], _ => none
  | (k, v) :: rest, key => if k = key then some v else Store.get rest key

/-- Number of objects the bucket holds under `key`. -/
def Store.countKey : Store → String → Nat
  | [], _ => 0
  | (k, _) :: rest, key => (if k = key then 1 else 0) + Store.countKey rest key

/-- A well-formed bucket: at most one object per key. -/
def Store.WF (s : Store) : Prop := (s.map Prod.fst).Nodup

/-- Errors surfaced by the handlers.  The source wraps every failure in
`loco_rs::Error::Message(String)`; the constructors record the specification's
classification of failures by origin (`InputError` for structurally invalid
requests, `StorageError` for store-client failures), each carrying the
message text. -/
inductive Err where
  | inputError (msg : String)
  | storageError (msg : String)
deriving DecidableEq, Repr

/-- One multipart field as `upload_file` observes it: the result of
`field.file_name()` and the result of `field.bytes().await` (which may fail
in the transport layer). -/
structure Field where
  file_name : Option String
  bytes : Except String Bytes

/-- The object key `upload_file` writes under:
`ObjectPath::from(file_name.clone())` built from the raw client-supplied file
name, with no transformation applied by the handler. -/
def uploadObjectKey (file_name : String) : String := file_name

/-- The object key `get_file` reads from: `ObjectPath::from(file_name.clone())`
built from the raw path parameter, with no transformation applied by the
handler. -/
def getObjectKey (file_name : String) : String := file_name

/-- Translation of the `while let Some(field) = multipart.next_field()` loop of
`upload_file`: for each field in order, require a file name (otherwise fail
with the input error), read its bytes (propagating transport failures), write
them under the file name and record the name.  Returns the handler result
together with the store as the loop left it (writes before a failure persist). -/
def uploadLoop : List Field → Store → List String → Except Err (List String) × Store
  | [], store, uploaded_files => (Except.ok uploaded_files, store)
  | f :: rest, store, uploaded_files =>
    match f.file_name with
    | none => (Except.error (Err.inputError "No file name provided"), store)
    | some file_name =>
      match f.bytes with
      | Except.error e => (Except.error (Err.storageError e), store)
      | Except.ok b =>
        uploadLoop rest (Store.put store (uploadObjectKey file_name) b)
          (uploaded_files ++ [file_name])

/-- Translation of the `upload_file` handler over the fields of the multipart
body: on success the `uploaded` list of the JSON response, paired with the
resulting store state. -/
def upload_file (store : Store) (fields : List Field) : Except Err (List String) × Store :=
  uploadLoop fields store []

/-- The store after writing each entry's payload under its file name, in
order. -/
def putAll (store : Store) (entries : List (String × Bytes)) : Store :=
  match entries with
  | [] => store
  | e :: rest => putAll (Store.put store e.1 e.2) rest

/-- An HTTP response as built by `get_file`: explicit status code and raw body
bytes. -/
structure HttpResponse where
  status : Nat
  body : Bytes
deriving DecidableEq, Repr

/-- Stand-in for the message text of the external store client's not-found
error (the text originates in the `object_store` crate, not in this
repository; the handler forwards it verbatim via `e.to_string()`). -/
def notFoundMessage (key : String) : String :=
  "Object at location " ++ key ++ " not found"

/-- Translation of the `get_file` handler: look up the `file_name` path
parameter, fetch the object under that exact key, and return its bytes with
status 200; paired with the (unmodified) store state. -/
def get_file (store : Store) (params : List (String × String)) :
    Except Err HttpResponse × Store :=
  match params.lookup "file_name" with
  | none => (Except.error (Err.inputError "File name required"), store)
  | some file_name =>
    match Store.get store (getObjectKey file_name) with
    | none => (Except.error (Err.storageError (notFoundMessage file_name)), store)
    | some b => (Except.ok { status := 200, body := b }, store)

/-- A listing entry as reported by `get_all_files` (`struct FileInfo`). -/
structure FileInfo where
  name : String
  size : Nat
deriving DecidableEq, Repr

/-- Object metadata as yielded by the store's listing stream: the storage key
(`meta.location`) and the object size in bytes. -/
structure ObjectMeta where
  location : String
  size : Nat
deriving DecidableEq, Repr

/-- Translation of `object_store::path::Path::filename`: the portion of the
key after the last `/` delimiter, or `none` for the empty key. -/
def pathFilename (raw : String) : Option String :=
  if raw = "" then none else (raw.splitOn "/").getLast?

/-- Translation of the `while let Some(result) = stream.next()` loop of
`get_all_files`: each stream item is either an object's metadata (appended to
the listing, with the literal name `"unknown"` when no file name is derivable
from the key) or a stream error, which aborts the whole listing. -/
def listLoop : List (Except String ObjectMeta) → List FileInfo → Except Err (List FileInfo)
  | [], files => Except.ok files
  | Except.error e :: _, _ => Except.error (Err.storageError e)
  | Except.ok meta :: rest, files =>
    listLoop rest
      (files ++ [{ name := (pathFilename meta.location).getD "unknown", size := meta.size }])

/-- Translation of the `get_all_files` handler over the store's listing
stream. -/
def get_all_files (stream : List (Except String ObjectMeta)) : Except Err (List FileInfo) :=
  listLoop stream []

/-- The listing stream the external store produces for bucket `s` when
enumeration succeeds: one metadata item per stored object, in store order,
carrying the object's key and its size in bytes. -/
def listStream : Store → List (Except String ObjectMeta)
  | [] => []
  | e :: rest => Except.ok { location := e.1, size := e.2.length } :: listStream rest

/-! ### Store lemmas -/

theorem Store.get_put_self (s : Store) (k : String) (b : Bytes) :
    Store.get (Store.put s k b) k = some b := by
  induction s with
  | nil => simp [Store.put, Store.get]
  | cons e rest ih =>
    obtain ⟨k1, v1⟩ := e
    by_cases h : k1 = k <;> simp [Store.put, Store.get, h, ih]

theorem Store.get_put_other (s : Store) (k k' : String) (b : Bytes) (h : k' ≠ k) :
    Store.get (Store.put s k b) k' = Store.get s k' := by
  induction s with
  | nil => simp [Store.put, Store.get, Ne.symm h]
  | cons e rest ih =>
    obtain ⟨k1, v1⟩ := e
    by_cases h1 : k1 = k
    · subst h1
      simp [Store.put, Store.get, Ne.symm h]
    · simp [Store.put, Store.get, h1, ih]

theorem Store.countKey_put_of_le_one (s : Store) (k : String) (b : Bytes)
    (h : Store.countKey s k ≤ 1) : Store.countKey (Store.put s k b) k = 1 := by
  induction s with
  | nil => simp [Store.put, Store.countKey]
  | cons e rest ih =>
    obtain ⟨k1, v1⟩ := e
    by_cases hk : k1 = k
    · subst hk
      simp [Store.countKey] at h
      simp [Store.put, Store.countKey]
      omega
    · simp [Store.countKey, hk] at h
      simp [Store.put, Store.countKey, hk]
      exact ih h

theorem Store.countKey_eq_zero_of_not_mem (s : Store) (k : String)
    (h : k ∉ s.map Prod.fst) : Store.countKey s k = 0 := by
  induction s with
  | nil => simp [Store.countKey]
  | cons e rest ih =>
    obtain ⟨k1, v1⟩ := e
    simp only [List.map_cons, List.mem_cons] at h
    push_neg at h
    simp [Store.countKey, Ne.symm h.1, ih h.2]

theorem Store.countKey_le_one_of_WF (s : Store) (k : String) (h : Store.WF s) :
    Store.countKey s k ≤ 1 := by
  induction s with
  | nil => simp [Store.countKey]
  | cons e rest ih =>
    obtain ⟨k1, v1⟩ := e
    simp only [Store.WF, List.map_cons, List.nodup_cons] at h
    by_cases hk : k1 = k
    · subst hk
      simp [Store.countKey, Store.countKey_eq_zero_of_not_mem rest k1 h.1]
    · simp [Store.countKey, hk]
      exact ih h.2

/-! ### Handler lemmas -/

theorem uploadLoop_all_named (entries : List (String × Bytes)) (store : Store)
    (acc : List String) :
    uploadLoop (entries.map fun e => ⟨some e.1, Except.ok e.2⟩) store acc =
      (Except.ok (acc ++ entries.map Prod.fst), putAll store entries) := by
  induction entries generalizing store acc with
  | nil => simp [uploadLoop, putAll]
  | cons e rest ih => simp [uploadLoop, putAll, uploadObjectKey, ih]

theorem uploadLoop_missing_name (entries : List (String × Bytes)) (bad : Field)
    (rest : List Field) (store : Store) (acc : List String)
    (hbad : bad.file_name = none) :
    uploadLoop (entries.map (fun e => ⟨some e.1, Except.ok e.2⟩) ++ bad :: rest) store acc =
      (Except.error (Err.inputError "No file name provided"), putAll store entries) := by
  induction entries generalizing store acc with
  | nil => simp [uploadLoop, hbad, putAll]
  | cons e tail ih => simp [uploadLoop, putAll, uploadObjectKey, ih]

theorem listLoop_ok (metas : List ObjectMeta) (acc : List FileInfo) :
    listLoop (metas.map Except.ok) acc =
      Except.ok (acc ++ metas.map fun m =>
        { name := (pathFilename m.location).getD "unknown", size := m.size }) := by
  induction metas generalizing acc with
  | nil => simp [listLoop]
  | cons m rest ih => simp [listLoop, ih]

theorem listLoop_error (metas : List ObjectMeta) (e : String)
    (rest : List (Except String ObjectMeta)) (acc : List FileInfo) :
    listLoop (metas.map Except.ok ++ Except.error e :: rest) acc =
      Except.error (Err.storageError e) := by
  induction metas generalizing acc with
  | nil => simp [listLoop]
  | cons m tail ih => simp [listLoop, ih]

theorem listLoop_listStream (s : Store) (acc : List FileInfo) :
    listLoop (listStream s) acc =
      Except.ok (acc ++ s.map fun o =>
        { name := (pathFilename o.1).getD "unknown", size := o.2.length }) := by
  induction s generalizing acc with
  | nil => simp [listStream, listLoop]
  | cons o rest ih => simp [listStream, listLoop, ih]

theorem runConfigCalls_initialized {α : Type} (cs : List (CallCtx α)) (v : S3Config) :
    runConfigCalls cs (some v) = (List.replicate cs.length v, some v) := by
  induction cs with
  | nil => simp [runConfigCalls]
  | cons c rest ih => simp [runConfigCalls, get_s3_config, getOrInit, ih, List.replicate]

/-! ### Claim theorems -/

/-- C1: downloading a file name immediately after uploading it (with no
intervening upload to that name) succeeds with status 200 and returns exactly
the uploaded bytes as the response body. -/
theorem upload_then_download_roundtrip (store : Store) (name : String) (b : Bytes) :
    (upload_file store [{ file_name := some name, bytes := Except.ok b }]).1 =
      Except.ok [name] ∧
    (get_file (upload_file store [{ file_name := some name, bytes := Except.ok b }]).2
        [("file_name", name)]).1 = Except.ok { status := 200, body := b } := by
  constructor
  · simp [upload_file, uploadLoop, uploadObjectKey]
  · simp [upload_file, uploadLoop, uploadObjectKey, get_file, getObjectKey,
      List.lookup, Store.get_put_self]

/-- C2: a multipart upload of N fields, each carrying a file name, with every
store put succeeding, succeeds with an `uploaded` list of exactly N entries
equal to the submitted file names in field arrival order. -/
theorem upload_success_lists_names (store : Store) (entries : List (String × Bytes)) :
    (upload_file store (entries.map fun e => ⟨some e.1, Except.ok e.2⟩)).1 =
      Except.ok (entries.map Prod.fst) ∧
    (entries.map Prod.fst).length =
      (entries.map fun e => (⟨some e.1, Except.ok e.2⟩ : Field)).length := by
  refine ⟨?_, by simp⟩
  simp [upload_file, uploadLoop_all_named]

/-- C3 as stated is false at this input: the error message of a missing file
name is "No file name provided" (capital N), not "no file name provided". -/
theorem upload_missing_name_message_counterexample :
    (upload_file [] [{ file_name := none, bytes := Except.ok [] }]).1 =
      Except.error (Err.inputError "No file name provided") ∧
    (upload_file [] [{ file_name := none, bytes := Except.ok [] }]).1 ≠
      Except.error (Err.inputError "no file name provided") := by
  refine ⟨rfl, ?_⟩
  simp [upload_file, uploadLoop]

/-- C3 (amended): a field with no file name, at any position, fails the whole
upload with the input error "No file name provided"; the writes of the fields
preceding it persist (no rollback) and the result does not depend on the
fields after the offending one. -/
theorem upload_missing_name_aborts (store : Store) (entries : List (String × Bytes))
    (bad : Field) (rest : List Field) (hbad : bad.file_name = none) :
    upload_file store (entries.map (fun e => ⟨some e.1, Except.ok e.2⟩) ++ bad :: rest) =
      (Except.error (Err.inputError "No file name provided"), putAll store entries) := by
  simp [upload_file, uploadLoop_missing_name _ _ _ _ _ hbad]

theorem upload_missing_name_aborts_witness :
    upload_file [] [⟨some "a.txt", Except.ok [1, 2]⟩, ⟨none, Except.ok []⟩,
        ⟨some "b.txt", Except.ok [3]⟩] =
      (Except.error (Err.inputError "No file name provided"), [("a.txt", [1, 2])]) := by
  have h := upload_missing_name_aborts [] [("a.txt", [1, 2])] ⟨none, Except.ok []⟩
      [⟨some "b.txt", Except.ok [3]⟩] rfl
  simpa [putAll, Store.put] using h

/-- C4: downloading a name whose key is absent from the store fails with a
storage error carrying the store's not-found message, and the store state is
unchanged. -/
theorem download_absent_fails (store : Store) (name : String)
    (h : Store.get store name = none) :
    get_file store [("file_name", name)] =
      (Except.error (Err.storageError (notFoundMessage name)), store) := by
  simp [get_file, getObjectKey, List.lookup, h]

theorem download_absent_fails_witness :
    get_file [] [("file_name", "missing.txt")] =
      (Except.error (Err.storageError (notFoundMessage "missing.txt")), []) :=
  download_absent_fails [] "missing.txt" rfl

/-- C5: uploading the same name twice with two distinct payloads leaves
exactly one object under that key, and a subsequent download returns the
second payload. -/
theorem upload_twice_overwrites (store : Store) (name : String) (b1 b2 : Bytes)
    (hwf : Store.WF store) (_hne : b1 ≠ b2) :
    Store.countKey
        (upload_file (upload_file store [⟨some name, Except.ok b1⟩]).2
          [⟨some name, Except.ok b2⟩]).2 name = 1 ∧
    (get_file (upload_file (upload_file store [⟨some name, Except.ok b1⟩]).2
          [⟨some name, Except.ok b2⟩]).2 [("file_name", name)]).1 =
      Except.ok { status := 200, body := b2 } := by
  have hstore : (upload_file (upload_file store [⟨some name, Except.ok b1⟩]).2
      [⟨some name, Except.ok b2⟩]).2 =
      Store.put (Store.put store (uploadObjectKey name) b1) (uploadObjectKey name) b2 := by
    simp [upload_file, uploadLoop]
  rw [hstore]
  constructor
  · have h1 : Store.countKey (Store.put store (uploadObjectKey name) b1)
        (uploadObjectKey name) = 1 :=
      Store.countKey_put_of_le_one _ _ _ (Store.countKey_le_one_of_WF _ _ hwf)
    exact Store.countKey_put_of_le_one _ _ _ (by omega)
  · simp [get_file, getObjectKey, List.lookup, uploadObjectKey, Store.get_put_self]

theorem upload_twice_overwrites_witness :
    Store.countKey
        (upload_file (upload_file [] [⟨some "f.bin", Except.ok [0]⟩]).2
          [⟨some "f.bin", Except.ok [1]⟩]).2 "f.bin" = 1 ∧
    (get_file (upload_file (upload_file [] [⟨some "f.bin", Except.ok [0]⟩]).2
          [⟨some "f.bin", Except.ok [1]⟩]).2 [("file_name", "f.bin")]).1 =
      Except.ok { status := 200, body := [1] } :=
  upload_twice_overwrites [] "f.bin" [0] [1] (by simp [Store.WF]) (by decide)

/-- C6: configuration resolution never fails outward — whenever the settings
blob is absent or fails to decode as a whole S3Config, the result is the full
documented default configuration. -/
theorem config_defaults_on_absent_or_undecodable {α : Type} (settings : Option α)
    (decode : α → Option S3Config) (h : settings.bind decode = none) :
    resolveS3Config settings decode =
      { endpoint := "http://minio:9000", bucket := "files", region := "us-east-1",
        access_key := "minioadmin", secret_key := "minioadmin" } := by
  simp [resolveS3Config, h, S3Config.default]

theorem config_defaults_witness :
    resolveS3Config (none : Option Unit) (fun _ => none) =
      { endpoint := "http://minio:9000", bucket := "files", region := "us-east-1",
        access_key := "minioadmin", secret_key := "minioadmin" } :=
  config_defaults_on_absent_or_undecodable none (fun _ => none) rfl

/-- C7: the configuration is resolved at most once per process — starting from
an uninitialized cell, the first call's context determines the value, every
call of the sequence returns that same value regardless of its own context,
and the cell is left holding it for the rest of the sequence. -/
theorem config_resolved_once {α : Type} (c : CallCtx α) (cs : List (CallCtx α)) :
    (runConfigCalls (c :: cs) none).1 =
      List.replicate (cs.length + 1) (resolveS3Config c.settings c.decode) ∧
    (runConfigCalls (c :: cs) none).2 = some (resolveS3Config c.settings c.decode) := by
  simp [runConfigCalls, get_s3_config, getOrInit, runConfigCalls_initialized,
    List.replicate]

/-- C8: listing a bucket reports one entry per object, each carrying the final
path segment of the object's key (or the literal "unknown" when none is
derivable) and the object's size in bytes; an enumeration error at any
position aborts the whole listing with a storage error and no partial
listing. -/
theorem list_reports_objects_or_aborts (s : Store) (metas : List ObjectMeta)
    (e : String) (rest : List (Except String ObjectMeta)) :
    get_all_files (listStream s) =
      Except.ok (s.map fun o =>
        { name := (pathFilename o.1).getD "unknown", size := o.2.length }) ∧
    (s.map fun o =>
        ({ name := (pathFilename o.1).getD "unknown", size := o.2.length } : FileInfo)).length
      = s.length ∧
    get_all_files (metas.map Except.ok ++ Except.error e :: rest) =
      Except.error (Err.storageError e) := by
  refine ⟨?_, by simp, ?_⟩
  · simp [get_all_files, listLoop_listStream]
  · simp [get_all_files, listLoop_error]

/-- C9: the storage key is the raw client-supplied file name used directly by
both upload and download — the handler applies no transformation to it, the
uploaded bytes land under exactly that raw key, and no other key is
affected. -/
theorem raw_name_used_as_key (store : Store) (name other : String) (b : Bytes)
    (hne : other ≠ name) :
    uploadObjectKey name = name ∧ getObjectKey name = name ∧
    Store.get (upload_file store [⟨some name, Except.ok b⟩]).2 (uploadObjectKey name) =
      some b ∧
    Store.get (upload_file store [⟨some name, Except.ok b⟩]).2 other =
      Store.get store other := by
  refine ⟨rfl, rfl, ?_, ?_⟩
  · simp [upload_file, uploadLoop, uploadObjectKey, Store.get_put_self]
  · simp [upload_file, uploadLoop, uploadObjectKey, Store.get_put_other _ _ _ _ hne]

theorem raw_name_used_as_key_witness :
    uploadObjectKey "../x" = "../x" ∧ getObjectKey "../x" = "../x" ∧
    Store.get (upload_file [] [⟨some "../x", Except.ok [7]⟩]).2 (uploadObjectKey "../x") =
      some [7] ∧
    Store.get (upload_file [] [⟨some "../x", Except.ok [7]⟩]).2 "y" = Store.get [] "y" :=
  raw_name_used_as_key [] "../x" "y" [7] (by decide)

/-- C10: an upload whose multipart body contains zero fields succeeds with an
empty `uploaded` list and performs no storage write — the store is
unchanged. -/
theorem upload_empty_fields (store : Store) :
    upload_file store [] = (Except.ok [], store) := rfl

end DDox
